import Mathlib

/-!
Verification of the NeuroCity report deduplication and escalation engine.

The definitions below are a shallow embedding of the backend code:

* `calculateDistance` — `aiService.js` `calculateDistance` (haversine formula,
  Earth radius 6371e3 m, `Math.atan2` modelled by `atan2`);
* `findNearbyReports` — `aiService.js` `findNearbyReports`: the SQL query
  `WHERE is_primary = 1 AND status IN ('pending','verified') AND id != ?
  ORDER BY created_at DESC` followed by the in-memory distance filter;
* `findDuplicate` — the candidate loop of the `POST /report` handler in
  `server.js` (photo-existence check, `compareImages`, threshold 80,
  `break` on first match, `catch`/`continue` on error);
* `handleValidReport` — the two insertion branches of `POST /report`
  (duplicate insert + primary-row `UPDATE`, or primary insert);
* `processReport` — `POST /report` including its input validation;
* `updateStatus` — `PATCH /report/:id`;
* `resolveReport` — `POST /report/:id/resolve` (both the AI-verified and the
  AI-unavailable branch);
* `compareImages` / `fallbackImageSimilarity` — `aiService.js`
  `compareImages` retry structure and its file-size fallback.

SQLite rows are modelled by `Report`; the table plus the autoincrement
counter by `Store`.  Timestamps are integers, coordinates are reals,
similarity scores are rationals.  External effects (Gemini, blockchain,
file system) enter as parameters: `photoOk` models `fs.existsSync` of a
stored photo, an `OracleOutcome` models one `compareImages` call as seen
by the handler loop (a returned score, or a thrown error).
-/

namespace NeuroCity

/-- Report status: the CHECK constraint of the `reports` table. -/
inductive Status where
  | pending
  | verified
  | resolved
deriving DecidableEq, Repr

/-- One row of the `reports` table, restricted to the columns the
deduplication and escalation engine reads or writes. -/
structure Report where
  id : ℤ
  latitude : ℝ
  longitude : ℝ
  status : Status
  isPrimary : Bool
  duplicateOf : Option ℤ
  duplicateCount : ℤ
  mergedReports : List ℤ
  similarityScore : ℚ
  aiVerificationScore : Option ℚ
  escalated : Bool
  escalationNotified : Bool
  createdAt : ℤ

/-- The `reports` table plus SQLite's autoincrement counter (`lastID` of the
next INSERT). -/
structure Store where
  reports : List Report
  nextId : ℤ

/-- The empty database. -/
def emptyStore : Store := { reports := [], nextId := 1 }

/-- What one `aiService.compareImages` call looks like from the handler loop:
either it resolved with a similarity score, or it threw (the loop's `catch`
branch). -/
inductive OracleOutcome where
  | score (q : ℚ)
  | failure

/-- `Math.atan2 y x` (JavaScript semantics on the non-NaN quadrants). -/
noncomputable def atan2 (y x : ℝ) : ℝ :=
  if 0 < x then Real.arctan (y / x)
  else if x < 0 ∧ 0 ≤ y then Real.arctan (y / x) + Real.pi
  else if x < 0 ∧ y < 0 then Real.arctan (y / x) - Real.pi
  else if x = 0 ∧ 0 < y then Real.pi / 2
  else if x = 0 ∧ y < 0 then -(Real.pi / 2)
  else 0

/-- `aiService.calculateDistance`: haversine distance in metres between two
latitude/longitude pairs in degrees, using Earth's mean radius 6371e3 m. -/
noncomputable def calculateDistance (lat1 lon1 lat2 lon2 : ℝ) : ℝ :=
  let R : ℝ := 6371000
  let φ1 := lat1 * Real.pi / 180
  let φ2 := lat2 * Real.pi / 180
  let dLat := (lat2 - lat1) * Real.pi / 180
  let dLon := (lon2 - lon1) * Real.pi / 180
  let a := Real.sin (dLat / 2) * Real.sin (dLat / 2) +
      Real.cos φ1 * Real.cos φ2 * Real.sin (dLon / 2) * Real.sin (dLon / 2)
  let c := 2 * atan2 (Real.sqrt a) (Real.sqrt (1 - a))
  R * c

/-- The JavaScript default `excludeId || -1` used to fill the `id != ?`
placeholder of the nearby query (`null`, `undefined` and `0` are falsy). -/
def effectiveExcludeId : Option ℤ → ℤ
  | none => -1
  | some e => if e = 0 then -1 else e

/-- `is_primary = 1 AND status IN ('pending', 'verified')` of the nearby
query. -/
def reportActive (r : Report) : Bool :=
  r.isPrimary && (decide (r.status = Status.pending) || decide (r.status = Status.verified))

/-- `aiService.findNearbyReports`: the SQL query selects the active primary
rows other than `excludeId` ordered by `created_at DESC`, then the handler
keeps those within `radius` metres of the query point (haversine). -/
noncomputable def findNearbyReports (reports : List Report) (lat lon radius : ℝ)
    (excludeId : Option ℤ) : List Report :=
  ((reports.filter fun r =>
      reportActive r && decide (r.id ≠ effectiveExcludeId excludeId)).mergeSort
      fun a b => decide (b.createdAt ≤ a.createdAt)).filter
    fun r => decide (calculateDistance lat lon r.latitude r.longitude ≤ radius)

/-- The candidate loop of `POST /report`: iterate the nearby reports in
order; skip a candidate whose stored photo file is missing and a candidate
whose comparison threw; accept the first candidate whose similarity score is
at least 80 and stop (`break`). -/
def findDuplicate (photoOk : ℤ → Bool) (oracle : ℤ → OracleOutcome) :
    List Report → Option (ℤ × ℚ)
  | [] => none
  | r :: rest =>
    if photoOk r.id then
      match oracle r.id with
      | OracleOutcome.score q =>
          if 80 ≤ q then some (r.id, q) else findDuplicate photoOk oracle rest
      | OracleOutcome.failure => findDuplicate photoOk oracle rest
    else findDuplicate photoOk oracle rest

/-- The loop's per-candidate acceptance test: stored photo present and
similarity score at least 80. -/
def isMatch (photoOk : ℤ → Bool) (oracle : ℤ → OracleOutcome) (r : Report) : Bool :=
  photoOk r.id &&
    match oracle r.id with
    | OracleOutcome.score q => decide (80 ≤ q)
    | OracleOutcome.failure => false

/-- The score the loop records for an accepted candidate. -/
def matchScore (oracle : ℤ → OracleOutcome) (r : Report) : ℚ :=
  match oracle r.id with
  | OracleOutcome.score q => q
  | OracleOutcome.failure => 0

/-- The row inserted by the duplicate branch of `POST /report`:
`is_primary = 0`, `duplicate_of` and `similarity_score` set, status
`'pending'`; `duplicate_count` and `merged_reports` are left to their column
defaults (1 and NULL). -/
def newDuplicateReport (nid : ℤ) (lat lon : ℝ) (now : ℤ) (pid : ℤ) (q : ℚ) : Report :=
  { id := nid, latitude := lat, longitude := lon, status := Status.pending,
    isPrimary := false, duplicateOf := some pid, duplicateCount := 1,
    mergedReports := [], similarityScore := q, aiVerificationScore := none,
    escalated := false, escalationNotified := false, createdAt := now }

/-- The row inserted by the unique branch of `POST /report`:
`is_primary = 1`, `duplicate_count = 1`, no `duplicate_of`,
`merged_reports` NULL, status `'pending'`. -/
def newPrimaryReport (nid : ℤ) (lat lon : ℝ) (now : ℤ) : Report :=
  { id := nid, latitude := lat, longitude := lon, status := Status.pending,
    isPrimary := true, duplicateOf := none, duplicateCount := 1,
    mergedReports := [], similarityScore := 0, aiVerificationScore := none,
    escalated := false, escalationNotified := false, createdAt := now }

/-- The `UPDATE reports SET duplicate_count = duplicate_count + 1,
merged_reports = ...(append)... WHERE id = ?` applied to one row. -/
def bumpPrimary (pid nid : ℤ) (r : Report) : Report :=
  if r.id = pid then
    { r with duplicateCount := r.duplicateCount + 1,
             mergedReports := r.mergedReports ++ [nid] }
  else r

/-- The response body of `POST /report` restricted to the deduplication
fields. -/
structure SubmitResponse where
  reportId : ℤ
  isDuplicate : Bool
  primaryReportId : Option ℤ
  similarityScore : Option ℚ
deriving DecidableEq

/-- The `POST /report` handler after input validation: query the nearby
active primaries within 50 m, run the candidate loop, then either insert a
duplicate row and bump its primary's merge counters, or insert a new
primary row. -/
noncomputable def handleValidReport (store : Store) (lat lon : ℝ) (now : ℤ)
    (photoOk : ℤ → Bool) (oracle : ℤ → OracleOutcome) : Store × SubmitResponse :=
  let nearby := findNearbyReports store.reports lat lon 50 none
  match findDuplicate photoOk oracle nearby with
  | some (pid, q) =>
      ({ reports := (store.reports ++ [newDuplicateReport store.nextId lat lon now pid q]).map
            (bumpPrimary pid store.nextId),
         nextId := store.nextId + 1 },
       { reportId := store.nextId, isDuplicate := true,
         primaryReportId := some pid, similarityScore := some q })
  | none =>
      ({ reports := store.reports ++ [newPrimaryReport store.nextId lat lon now],
         nextId := store.nextId + 1 },
       { reportId := store.nextId, isDuplicate := false,
         primaryReportId := none, similarityScore := none })

/-- A `POST /report` request as the validation code sees it: whether a photo
file was attached and whether the latitude / longitude fields are present
(`none` models a missing or falsy body field). -/
structure Request where
  photoProvided : Bool
  latitude : Option ℝ
  longitude : Option ℝ

/-- The outcome of `POST /report`: an HTTP error status, or a stored report
with its deduplication classification. -/
inductive SubmitResult where
  | error (httpStatus : ℤ)
  | success (resp : SubmitResponse)

/-- `POST /report` including its input validation: missing photo or missing
latitude/longitude is rejected with HTTP 400 before any insert; otherwise
the deduplication pipeline runs.  The handler performs no coordinate range
check. -/
noncomputable def processReport (store : Store) (req : Request) (now : ℤ)
    (photoOk : ℤ → Bool) (oracle : ℤ → OracleOutcome) : Store × SubmitResult :=
  if req.photoProvided = false then (store, SubmitResult.error 400)
  else
    match req.latitude, req.longitude with
    | some lat, some lon =>
        let out := handleValidReport store lat lon now photoOk oracle
        (out.1, SubmitResult.success out.2)
    | _, _ => (store, SubmitResult.error 400)

/-- `PATCH /report/:id`: update the row's status; when the new status is
`'resolved'` the same UPDATE also clears `escalated` and
`escalation_notified`. -/
def updateStatus (store : Store) (id : ℤ) (newStatus : Status) : Store :=
  { store with
    reports := store.reports.map fun r =>
      if r.id = id then
        if newStatus = Status.resolved then
          { r with status := newStatus, escalated := false, escalationNotified := false }
        else { r with status := newStatus }
      else r }

/-- `POST /report/:id/resolve`: both branches (AI verification succeeded
with a score, or was unavailable) set the status to `'resolved'` and clear
`escalated` and `escalation_notified` in the same UPDATE; only the
verified branch stores an `ai_verification_score`. -/
def resolveReport (store : Store) (id : ℤ) (verification : Option ℚ) : Store :=
  { store with
    reports := store.reports.map fun r =>
      if r.id = id then
        match verification with
        | some v =>
            { r with status := Status.resolved, escalated := false,
                     escalationNotified := false, aiVerificationScore := some v }
        | none =>
            { r with status := Status.resolved, escalated := false,
                     escalationNotified := false }
      else r }

/-- Which attempt of the `compareImages` retry loop first resolves
(`none` = that attempt threw). -/
def firstSuccess : List (Option ℚ) → Option ℚ
  | [] => none
  | some q :: _ => some q
  | none :: rest => firstSuccess rest

/-- `aiService.fallbackImageSimilarity`: compare the two photo files by
size, capped at 50; when reading a file fails the score is 0.  `sizes` is
`none` when `statSync` throws. -/
def fallbackImageSimilarity (sizes : Option (ℚ × ℚ)) : ℚ :=
  match sizes with
  | none => 0
  | some (size1, size2) =>
      let sizeDiff := |size1 - size2|
      let avgSize := (size1 + size2) / 2
      let sizeSimilarity := max 0 (100 - sizeDiff / avgSize * 100)
      min 50 sizeSimilarity

/-- `aiService.compareImages` as a score: with no API key configured it
degrades to the file-size fallback at once; otherwise it retries up to
3 attempts and returns the first attempt's score that resolves, degrading
to the fallback when all attempts threw. -/
def compareImages (apiKeyConfigured : Bool) (attempts : List (Option ℚ))
    (sizes : Option (ℚ × ℚ)) : ℚ :=
  if apiKeyConfigured = false then fallbackImageSimilarity sizes
  else
    match firstSuccess (attempts.take 3) with
    | some q => q
    | none => fallbackImageSimilarity sizes

/-- One core mutation of the store: a report submission (valid or not), a
status update, or a resolution upload. -/
inductive Step : Store → Store → Prop where
  | submit (s : Store) (req : Request) (now : ℤ) (photoOk : ℤ → Bool)
      (oracle : ℤ → OracleOutcome) : Step s (processReport s req now photoOk oracle).1
  | update (s : Store) (id : ℤ) (st : Status) : Step s (updateStatus s id st)
  | resolve (s : Store) (id : ℤ) (v : Option ℚ) : Step s (resolveReport s id v)

/-- Stores reachable from the empty database through the core operations. -/
inductive Reachable : Store → Prop where
  | init : Reachable emptyStore
  | step {s s' : Store} : Reachable s → Step s s' → Reachable s'

/-- Row ids and duplicate references lie below the autoincrement counter. -/
def storeWF (store : Store) : Prop :=
  ∀ r ∈ store.reports, r.id < store.nextId ∧
    ∀ pid, r.duplicateOf = some pid → pid < store.nextId

/-- The merge-bookkeeping invariant: on every primary row,
`duplicate_count` is 1 plus the length of `merged_reports`, which is the
number of rows whose `duplicate_of` points at it. -/
def dupInvariant (store : Store) : Prop :=
  ∀ r ∈ store.reports, r.isPrimary = true →
    r.duplicateCount = 1 + (r.mergedReports.length : ℤ) ∧
    r.mergedReports.length =
      (store.reports.filter fun x => decide (x.duplicateOf = some r.id)).length

/-- The spec's notion of in-range coordinates (the handler never checks
it). Modelled from the spec: latitude within ±90 degrees and longitude
within ±180 degrees. -/
def coordinatesInRange (lat lon : ℝ) : Prop :=
  -90 ≤ lat ∧ lat ≤ 90 ∧ -180 ≤ lon ∧ lon ≤ 180

/-- A concrete stored primary report used to instantiate the theorems. -/
def demoPrimary : Report :=
  { id := 1, latitude := 12, longitude := 77, status := Status.pending,
    isPrimary := true, duplicateOf := none, duplicateCount := 1,
    mergedReports := [], similarityScore := 0, aiVerificationScore := none,
    escalated := false, escalationNotified := false, createdAt := 100 }

/-- A store holding just `demoPrimary`. -/
def demoStore : Store := { reports := [demoPrimary], nextId := 2 }

/-- An oracle that reports similarity 85 for every comparison. -/
def demoOracle : ℤ → OracleOutcome := fun _ => OracleOutcome.score 85

/-- An oracle whose every comparison throws. -/
def failingOracle : ℤ → OracleOutcome := fun _ => OracleOutcome.failure

/-- A file system on which every stored photo exists. -/
def allPhotosOk : ℤ → Bool := fun _ => true

/-- A well-formed submission request at the demo coordinates. -/
def demoRequest : Request :=
  { photoProvided := true, latitude := some 12, longitude := some 77 }

/-- A submission whose latitude 999 is outside the valid ±90 degree range
but whose required fields are all present. -/
def outOfRangeRequest : Request :=
  { photoProvided := true, latitude := some 999, longitude := some 0 }

/-- A submission with no photo attached. -/
def noPhotoRequest : Request :=
  { photoProvided := false, latitude := some 12, longitude := some 77 }

-- Helper lemmas

theorem bumpPrimary_id (pid nid : ℤ) (r : Report) : (bumpPrimary pid nid r).id = r.id := by
  by_cases h : r.id = pid <;> simp [bumpPrimary, h]

theorem bumpPrimary_duplicateOf (pid nid : ℤ) (r : Report) :
    (bumpPrimary pid nid r).duplicateOf = r.duplicateOf := by
  by_cases h : r.id = pid <;> simp [bumpPrimary, h]

theorem bumpPrimary_isPrimary (pid nid : ℤ) (r : Report) :
    (bumpPrimary pid nid r).isPrimary = r.isPrimary := by
  by_cases h : r.id = pid <;> simp [bumpPrimary, h]

theorem mem_findNearbyReports (reports : List Report) (lat lon radius : ℝ)
    (excludeId : Option ℤ) (r : Report) :
    r ∈ findNearbyReports reports lat lon radius excludeId ↔
      (r ∈ reports ∧ r.isPrimary = true ∧
       (r.status = Status.pending ∨ r.status = Status.verified) ∧
       r.id ≠ effectiveExcludeId excludeId ∧
       calculateDistance lat lon r.latitude r.longitude ≤ radius) := by
  simp only [findNearbyReports, List.mem_filter, List.mem_mergeSort,
    Bool.and_eq_true, decide_eq_true_eq, reportActive, Bool.or_eq_true]
  tauto

theorem sorted_findNearbyReports (reports : List Report) (lat lon radius : ℝ)
    (excludeId : Option ℤ) :
    List.Sorted (fun a b : Report => b.createdAt ≤ a.createdAt)
      (findNearbyReports reports lat lon radius excludeId) := by
  have htrans : ∀ a b c : Report, decide (b.createdAt ≤ a.createdAt) = true →
      decide (c.createdAt ≤ b.createdAt) = true →
      decide (c.createdAt ≤ a.createdAt) = true := by
    intro a b c h1 h2
    simp only [decide_eq_true_eq] at h1 h2 ⊢
    exact le_trans h2 h1
  have htotal : ∀ a b : Report,
      (decide (b.createdAt ≤ a.createdAt) || decide (a.createdAt ≤ b.createdAt)) = true := by
    intro a b
    simp only [Bool.or_eq_true, decide_eq_true_eq]
    exact le_total _ _
  have hs := @List.sorted_mergeSort Report
    (fun a b => decide (b.createdAt ≤ a.createdAt)) htrans htotal
    (reports.filter fun r =>
      reportActive r && decide (r.id ≠ effectiveExcludeId excludeId))
  simp only [findNearbyReports]
  exact List.Pairwise.filter _ (hs.imp fun h => by simpa using h)

theorem findNearbyReports_nil (lat lon radius : ℝ) (excludeId : Option ℤ) :
    findNearbyReports [] lat lon radius excludeId = [] := by
  simp [findNearbyReports]

theorem findDuplicate_eq_find? (photoOk : ℤ → Bool) (oracle : ℤ → OracleOutcome)
    (l : List Report) :
    findDuplicate photoOk oracle l =
      (l.find? (isMatch photoOk oracle)).map fun r => (r.id, matchScore oracle r) := by
  induction l with
  | nil => rfl
  | cons r rest ih =>
      by_cases hp : photoOk r.id = true
      · cases ho : oracle r.id with
        | score q =>
            by_cases hq : 80 ≤ q
            · simp [findDuplicate, List.find?_cons, isMatch, matchScore, hp, ho, hq]
            · simp [findDuplicate, List.find?_cons, isMatch, matchScore, hp, ho, hq, ih]
        | failure =>
            simp [findDuplicate, List.find?_cons, isMatch, hp, ho, ih]
      · simp only [Bool.not_eq_true] at hp
        simp [findDuplicate, List.find?_cons, isMatch, hp, ih]

theorem findDuplicate_some (photoOk : ℤ → Bool) (oracle : ℤ → OracleOutcome)
    (l : List Report) (pid : ℤ) (q : ℚ)
    (h : findDuplicate photoOk oracle l = some (pid, q)) :
    ∃ r ∈ l, r.id = pid ∧ isMatch photoOk oracle r = true ∧ matchScore oracle r = q := by
  rw [findDuplicate_eq_find?] at h
  cases hf : l.find? (isMatch photoOk oracle) with
  | none => rw [hf] at h; exact absurd h (by simp)
  | some r =>
      rw [hf] at h
      obtain ⟨h1, h2⟩ : r.id = pid ∧ matchScore oracle r = q := by
        simpa using h
      exact ⟨r, List.mem_of_find?_eq_some hf, h1, List.find?_some hf, h2⟩

theorem isMatch_score (photoOk : ℤ → Bool) (oracle : ℤ → OracleOutcome) (r : Report)
    (h : isMatch photoOk oracle r = true) :
    photoOk r.id = true ∧ ∃ q, oracle r.id = OracleOutcome.score q ∧ 80 ≤ q ∧
      matchScore oracle r = q := by
  unfold isMatch at h
  cases ho : oracle r.id with
  | score q =>
      rw [ho] at h
      simp only [Bool.and_eq_true, decide_eq_true_eq] at h
      exact ⟨h.1, q, rfl, h.2, by simp [matchScore, ho]⟩
  | failure => rw [ho] at h; simp at h

theorem handleValidReport_length (store : Store) (lat lon : ℝ) (now : ℤ)
    (photoOk : ℤ → Bool) (oracle : ℤ → OracleOutcome) :
    ((handleValidReport store lat lon now photoOk oracle).1).reports.length =
      store.reports.length + 1 := by
  unfold handleValidReport
  cases hd : findDuplicate photoOk oracle (findNearbyReports store.reports lat lon 50 none) with
  | none => simp [hd]
  | some pq => simp [hd]

theorem calculateDistance_self (lat lon : ℝ) : calculateDistance lat lon lat lon = 0 := by
  have h1 : atan2 0 1 = 0 := by
    unfold atan2
    rw [if_pos (by norm_num : (0:ℝ) < 1)]
    simp
  simp [calculateDistance, h1]

theorem demo_nearby :
    findNearbyReports demoStore.reports 12 77 50 none = [demoPrimary] := by
  have hpred : (reportActive demoPrimary &&
      decide (demoPrimary.id ≠ effectiveExcludeId none)) = true := by rfl
  have hdist : decide
      (calculateDistance 12 77 demoPrimary.latitude demoPrimary.longitude ≤ 50) = true := by
    simp only [decide_eq_true_eq]
    have : calculateDistance 12 77 demoPrimary.latitude demoPrimary.longitude = 0 :=
      calculateDistance_self 12 77
    rw [this]
    norm_num
  show ((demoStore.reports.filter fun r =>
      reportActive r && decide (r.id ≠ effectiveExcludeId none)).mergeSort
      fun a b => decide (b.createdAt ≤ a.createdAt)).filter
      (fun r => decide (calculateDistance 12 77 r.latitude r.longitude ≤ 50)) = [demoPrimary]
  rw [show demoStore.reports = [demoPrimary] from rfl]
  simp only [List.filter_cons, List.filter_nil, hpred, hdist, if_true,
    List.mergeSort_singleton]

theorem demo_findDuplicate :
    findDuplicate allPhotosOk demoOracle [demoPrimary] = some (1, 85) := rfl

theorem demo_dup_mem :
    newDuplicateReport 2 12 77 0 1 85 ∈
      ((handleValidReport demoStore 12 77 0 allPhotosOk demoOracle).1).reports := by
  have hd : findDuplicate allPhotosOk demoOracle
      (findNearbyReports demoStore.reports 12 77 50 none) = some (1, 85) := by
    rw [demo_nearby]
    exact demo_findDuplicate
  simp only [handleValidReport, hd, List.map_append, List.map_cons, List.map_nil]
  refine List.mem_append_right _ (List.mem_singleton.mpr ?_)
  simp [demoStore, bumpPrimary, newDuplicateReport]

theorem map_preserving_wf_inv (s : Store) (u : Report → Report)
    (hid : ∀ r, (u r).id = r.id)
    (hprim : ∀ r, (u r).isPrimary = r.isPrimary)
    (hdup : ∀ r, (u r).duplicateOf = r.duplicateOf)
    (hcount : ∀ r, (u r).duplicateCount = r.duplicateCount)
    (hmerged : ∀ r, (u r).mergedReports = r.mergedReports) :
    (storeWF s → storeWF { s with reports := s.reports.map u }) ∧
    (dupInvariant s → dupInvariant { s with reports := s.reports.map u }) := by
  constructor
  · intro hwf r' hr'
    rcases List.mem_map.mp hr' with ⟨r, hr, rfl⟩
    obtain ⟨h1, h2⟩ := hwf r hr
    refine ⟨?_, ?_⟩
    · rw [hid]; exact h1
    · intro pid hp
      rw [hdup] at hp
      exact h2 pid hp
  · intro hinv r' hr' hp'
    rcases List.mem_map.mp hr' with ⟨r, hr, rfl⟩
    have hrp : r.isPrimary = true := by rw [hprim] at hp'; exact hp'
    obtain ⟨h1, h2⟩ := hinv r hr hrp
    refine ⟨?_, ?_⟩
    · rw [hcount, hmerged]; exact h1
    · rw [hmerged, hid]
      have hmap : List.filter (fun x => decide (x.duplicateOf = some r.id)) (s.reports.map u) =
          List.map u (List.filter ((fun x => decide (x.duplicateOf = some r.id)) ∘ u) s.reports) :=
        List.filter_map u s.reports
      rw [hmap, List.length_map]
      have hcongr : List.filter ((fun x => decide (x.duplicateOf = some r.id)) ∘ u) s.reports =
          List.filter (fun x => decide (x.duplicateOf = some r.id)) s.reports := by
        apply List.filter_congr
        intro y _
        simp only [Function.comp_apply]
        rw [hdup]
      rw [hcongr]
      exact h2

theorem updateStatus_wf_inv (s : Store) (id : ℤ) (st : Status) :
    (storeWF s → storeWF (updateStatus s id st)) ∧
    (dupInvariant s → dupInvariant (updateStatus s id st)) := by
  apply map_preserving_wf_inv <;>
    (intro r; by_cases h : r.id = id <;> by_cases hst : st = Status.resolved <;>
      simp [h, hst])

theorem resolveReport_wf_inv (s : Store) (id : ℤ) (v : Option ℚ) :
    (storeWF s → storeWF (resolveReport s id v)) ∧
    (dupInvariant s → dupInvariant (resolveReport s id v)) := by
  apply map_preserving_wf_inv <;>
    (intro r; by_cases h : r.id = id <;> cases v <;> simp [h])

theorem handleValid_wf_inv (s : Store) (lat lon : ℝ) (now : ℤ)
    (photoOk : ℤ → Bool) (oracle : ℤ → OracleOutcome)
    (hwf : storeWF s) (hinv : dupInvariant s) :
    storeWF (handleValidReport s lat lon now photoOk oracle).1 ∧
    dupInvariant (handleValidReport s lat lon now photoOk oracle).1 := by
  cases hd : findDuplicate photoOk oracle (findNearbyReports s.reports lat lon 50 none) with
  | none =>
      simp only [handleValidReport, hd]
      constructor
      · intro r hr
        rcases List.mem_append.mp hr with h | h
        · obtain ⟨h1, h2⟩ := hwf r h
          exact ⟨lt_trans h1 (lt_add_one _), fun pid hp => lt_trans (h2 pid hp) (lt_add_one _)⟩
        · rcases List.mem_singleton.mp h with rfl
          refine ⟨lt_add_one _, ?_⟩
          intro pid hp
          simp [newPrimaryReport] at hp
      · intro r hr hp
        rcases List.mem_append.mp hr with h | h
        · obtain ⟨h1, h2⟩ := hinv r h hp
          refine ⟨h1, ?_⟩
          rw [List.filter_append]
          have hnil : List.filter (fun x => decide (x.duplicateOf = some r.id))
              [newPrimaryReport s.nextId lat lon now] = [] := by
            simp [newPrimaryReport]
          rw [hnil, List.append_nil]
          exact h2
        · rcases List.mem_singleton.mp h with rfl
          refine ⟨by simp [newPrimaryReport], ?_⟩
          rw [List.filter_append]
          have hold : List.filter (fun x =>
              decide (x.duplicateOf = some (newPrimaryReport s.nextId lat lon now).id))
              s.reports = [] := by
            apply List.filter_eq_nil_iff.mpr
            intro x hx
            obtain ⟨_, h2⟩ := hwf x hx
            simp only [newPrimaryReport, decide_eq_true_eq]
            intro hcon
            exact absurd (h2 _ hcon) (lt_irrefl _)
          have hnew : List.filter (fun x =>
              decide (x.duplicateOf = some (newPrimaryReport s.nextId lat lon now).id))
              [newPrimaryReport s.nextId lat lon now] = [] := by
            simp [newPrimaryReport]
          rw [hold, hnew]
          simp [newPrimaryReport]
  | some pq =>
      obtain ⟨pid, q⟩ := pq
      obtain ⟨c, hc_near, hc_id, _, _⟩ := findDuplicate_some photoOk oracle _ pid q hd
      have hc_store : c ∈ s.reports :=
        ((mem_findNearbyReports s.reports lat lon 50 none c).mp hc_near).1
      have hpid_lt : pid < s.nextId := hc_id ▸ (hwf c hc_store).1
      simp only [handleValidReport, hd]
      constructor
      · intro r hr
        rcases List.mem_map.mp hr with ⟨x, hx, rfl⟩
        rcases List.mem_append.mp hx with h | h
        · obtain ⟨h1, h2⟩ := hwf x h
          refine ⟨?_, ?_⟩
          · rw [bumpPrimary_id]; exact lt_trans h1 (lt_add_one _)
          · intro pid' hp
            rw [bumpPrimary_duplicateOf] at hp
            exact lt_trans (h2 pid' hp) (lt_add_one _)
        · rcases List.mem_singleton.mp h with rfl
          refine ⟨?_, ?_⟩
          · rw [bumpPrimary_id]
            exact lt_add_one _
          · intro pid' hp
            rw [bumpPrimary_duplicateOf] at hp
            have : pid' = pid := by
              simpa [newDuplicateReport] using hp.symm
            subst this
            exact lt_trans hpid_lt (lt_add_one _)
      · intro r hr hp
        rcases List.mem_map.mp hr with ⟨x, hx, rfl⟩
        have hxp : x.isPrimary = true := by
          rw [bumpPrimary_isPrimary] at hp; exact hp
        rw [bumpPrimary_id]
        have hfilter : (List.filter (fun y => decide (y.duplicateOf = some x.id))
            ((s.reports ++ [newDuplicateReport s.nextId lat lon now pid q]).map
              (bumpPrimary pid s.nextId))).length =
            (List.filter (fun y => decide (y.duplicateOf = some x.id))
              (s.reports ++ [newDuplicateReport s.nextId lat lon now pid q])).length := by
          rw [List.filter_map, List.length_map]
          congr 1
          apply List.filter_congr
          intro y _
          simp only [Function.comp_apply]
          rw [bumpPrimary_duplicateOf]
        rw [hfilter]
        rcases List.mem_append.mp hx with h | h
        · obtain ⟨h1, h2⟩ := hinv x h hxp
          by_cases hxpid : x.id = pid
          · constructor
            · simp only [bumpPrimary, if_pos hxpid, List.length_append,
                List.length_cons, List.length_nil]
              push_cast
              omega
            · simp only [bumpPrimary, if_pos hxpid]
              rw [List.filter_append, List.length_append]
              have hnd : List.filter (fun y => decide (y.duplicateOf = some x.id))
                  [newDuplicateReport s.nextId lat lon now pid q] =
                  [newDuplicateReport s.nextId lat lon now pid q] := by
                simp [newDuplicateReport, hxpid]
              rw [hnd]
              simp only [List.length_append, List.length_cons, List.length_nil]
              omega
          · constructor
            · simp only [bumpPrimary, if_neg hxpid]
              exact h1
            · simp only [bumpPrimary, if_neg hxpid]
              rw [List.filter_append]
              have hnd : List.filter (fun y => decide (y.duplicateOf = some x.id))
                  [newDuplicateReport s.nextId lat lon now pid q] = [] := by
                apply List.filter_eq_nil_iff.mpr
                intro a ha
                rcases List.mem_singleton.mp ha with rfl
                simp only [newDuplicateReport, decide_eq_true_eq]
                intro hcon
                exact hxpid (by simpa using hcon.symm)
              rw [hnd, List.append_nil]
              exact h2
        · rcases List.mem_singleton.mp h with rfl
          simp [newDuplicateReport] at hxp

theorem processReport_wf_inv (s : Store) (req : Request) (now : ℤ)
    (photoOk : ℤ → Bool) (oracle : ℤ → OracleOutcome)
    (hwf : storeWF s) (hinv : dupInvariant s) :
    storeWF (processReport s req now photoOk oracle).1 ∧
    dupInvariant (processReport s req now photoOk oracle).1 := by
  unfold processReport
  by_cases hp : req.photoProvided = false
  · simp only [hp, if_true]
    exact ⟨hwf, hinv⟩
  · simp only [hp, if_false]
    cases hlat : req.latitude with
    | none => simp only; exact ⟨hwf, hinv⟩
    | some lat =>
        cases hlon : req.longitude with
        | none => simp only; exact ⟨hwf, hinv⟩
        | some lon =>
            simp only
            exact handleValid_wf_inv s lat lon now photoOk oracle hwf hinv

theorem reachable_wf_inv (s : Store) (h : Reachable s) : storeWF s ∧ dupInvariant s := by
  induction h with
  | init =>
      constructor
      · intro r hr
        simp [emptyStore] at hr
      · intro r hr
        simp [emptyStore] at hr
  | step _ hstep ih =>
      cases hstep with
      | submit req now photoOk oracle =>
          exact processReport_wf_inv _ req now photoOk oracle ih.1 ih.2
      | update id st =>
          exact ⟨(updateStatus_wf_inv _ id st).1 ih.1, (updateStatus_wf_inv _ id st).2 ih.2⟩
      | resolve id v =>
          exact ⟨(resolveReport_wf_inv _ id v).1 ih.1, (resolveReport_wf_inv _ id v).2 ih.2⟩

-- Claim theorems

/-- C2: the candidate loop examines the geo-query candidates in order and
accepts the first one whose similarity score is at least 80, then stops:
the result is `List.find?` of the acceptance test, and once a matching
candidate is found the candidates after it have no influence on the
result. -/
theorem first_match_wins (photoOk : ℤ → Bool) (oracle : ℤ → OracleOutcome) :
    (∀ l : List Report, findDuplicate photoOk oracle l =
      (l.find? (isMatch photoOk oracle)).map fun r => (r.id, matchScore oracle r)) ∧
    (∀ (l₁ : List Report) (c : Report) (l₂ : List Report) (q : ℚ),
      (∀ r ∈ l₁, isMatch photoOk oracle r = false) →
      photoOk c.id = true → oracle c.id = OracleOutcome.score q → 80 ≤ q →
      findDuplicate photoOk oracle (l₁ ++ c :: l₂) = some (c.id, q)) := by
  refine ⟨findDuplicate_eq_find? photoOk oracle, ?_⟩
  intro l₁ c l₂ q hskip hp ho hq
  induction l₁ with
  | nil =>
      simp [findDuplicate, hp, ho, hq]
  | cons r rest ih =>
      have hr : isMatch photoOk oracle r = false := hskip r (by simp)
      have hrest : ∀ x ∈ rest, isMatch photoOk oracle x = false := by
        intro x hx; exact hskip x (by simp [hx])
      have step := ih hrest
      by_cases hpr : photoOk r.id = true
      · cases hor : oracle r.id with
        | score q' =>
            have hq' : ¬ 80 ≤ q' := by
              intro hc
              rw [isMatch, hpr, hor] at hr
              simp [hc] at hr
            simpa [findDuplicate, hpr, hor, hq'] using step
        | failure =>
            simpa [findDuplicate, hpr, hor] using step
      · simp only [Bool.not_eq_true] at hpr
        simpa [findDuplicate, hpr] using step

/-- C6: a candidate whose stored photo is unavailable or whose similarity
comparison throws is treated as a non-match — the loop's result is the same
as if the candidate were absent — and the submission still completes with
exactly one new report row stored. -/
theorem oracle_failure_skips_candidate (photoOk : ℤ → Bool)
    (oracle : ℤ → OracleOutcome) (l₁ : List Report) (c : Report) (l₂ : List Report)
    (h : photoOk c.id = false ∨ oracle c.id = OracleOutcome.failure) :
    findDuplicate photoOk oracle (l₁ ++ c :: l₂) =
      findDuplicate photoOk oracle (l₁ ++ l₂) ∧
    ∀ (store : Store) (lat lon : ℝ) (now : ℤ),
      ((handleValidReport store lat lon now photoOk oracle).1).reports.length =
        store.reports.length + 1 := by
  constructor
  · induction l₁ with
    | nil =>
        rcases h with hp | ho
        · simp [findDuplicate, hp]
        · by_cases hp : photoOk c.id = true
          · simp [findDuplicate, hp, ho]
          · simp only [Bool.not_eq_true] at hp
            simp [findDuplicate, hp]
    | cons r rest ih =>
        by_cases hpr : photoOk r.id = true
        · cases hor : oracle r.id with
          | score q =>
              by_cases hq : 80 ≤ q
              · simp [findDuplicate, hpr, hor, hq]
              · simpa [findDuplicate, hpr, hor, hq] using ih
          | failure => simpa [findDuplicate, hpr, hor] using ih
        · simp only [Bool.not_eq_true] at hpr
          simpa [findDuplicate, hpr] using ih
  · intro store lat lon now
    exact handleValidReport_length store lat lon now photoOk oracle

/-- C6 witness: a candidate whose comparison throws is skipped on a concrete
input, and the submission still stores one row. -/
theorem oracle_failure_skips_candidate_witness :
    (findDuplicate allPhotosOk failingOracle ([] ++ demoPrimary :: []) =
      findDuplicate allPhotosOk failingOracle ([] ++ []) ∧
    ∀ (store : Store) (lat lon : ℝ) (now : ℤ),
      ((handleValidReport store lat lon now allPhotosOk failingOracle).1).reports.length =
        store.reports.length + 1) :=
  oracle_failure_skips_candidate allPhotosOk failingOracle [] demoPrimary []
    (Or.inr rfl)

/-- C4: the geo query returns exactly the stored reports that are primary,
have status pending or verified, have an id other than the effective
exclusion id (`excludeId || -1`), and lie within `radius` metres of the
query point under the haversine distance with Earth radius 6371000 m; the
result is ordered by creation time, most recent first. -/
theorem findNearbyReports_spec (reports : List Report) (lat lon radius : ℝ)
    (excludeId : Option ℤ) :
    (∀ r : Report, r ∈ findNearbyReports reports lat lon radius excludeId ↔
      (r ∈ reports ∧ r.isPrimary = true ∧
       (r.status = Status.pending ∨ r.status = Status.verified) ∧
       r.id ≠ effectiveExcludeId excludeId ∧
       calculateDistance lat lon r.latitude r.longitude ≤ radius)) ∧
    List.Sorted (fun a b : Report => b.createdAt ≤ a.createdAt)
      (findNearbyReports reports lat lon radius excludeId) :=
  ⟨mem_findNearbyReports reports lat lon radius excludeId,
   sorted_findNearbyReports reports lat lon radius excludeId⟩

/-- C1: on a valid submission, when the candidate loop finds a match the new
report is stored as the single new row with `is_primary = 0` and
`duplicate_of` pointing at the matched primary, whose `duplicate_count`
grows by exactly 1 and whose `merged_reports` gets the new id appended;
when no match is found the new report is stored as the single new row with
`is_primary = 1`, `duplicate_count = 1` and `merged_reports` empty. -/
theorem submit_stores_duplicate_or_primary (store : Store) (lat lon : ℝ) (now : ℤ)
    (photoOk : ℤ → Bool) (oracle : ℤ → OracleOutcome) :
    (∀ (pid : ℤ) (q : ℚ),
      findDuplicate photoOk oracle (findNearbyReports store.reports lat lon 50 none) =
        some (pid, q) →
      ((handleValidReport store lat lon now photoOk oracle).1).reports.length =
        store.reports.length + 1 ∧
      (∃ r ∈ ((handleValidReport store lat lon now photoOk oracle).1).reports,
        r.id = store.nextId ∧ r.isPrimary = false ∧ r.duplicateOf = some pid ∧
        r.similarityScore = q) ∧
      ∀ p ∈ store.reports, p.id = pid →
        { p with duplicateCount := p.duplicateCount + 1,
                 mergedReports := p.mergedReports ++ [store.nextId] } ∈
          ((handleValidReport store lat lon now photoOk oracle).1).reports) ∧
    (findDuplicate photoOk oracle (findNearbyReports store.reports lat lon 50 none) =
        none →
      ((handleValidReport store lat lon now photoOk oracle).1).reports.length =
        store.reports.length + 1 ∧
      ∃ r ∈ ((handleValidReport store lat lon now photoOk oracle).1).reports,
        r.id = store.nextId ∧ r.isPrimary = true ∧ r.duplicateCount = 1 ∧
        r.mergedReports = [] ∧ r.duplicateOf = none) := by
  constructor
  · intro pid q h
    refine ⟨handleValidReport_length store lat lon now photoOk oracle, ?_, ?_⟩
    · refine ⟨bumpPrimary pid store.nextId
        (newDuplicateReport store.nextId lat lon now pid q), ?_, ?_⟩
      · simp only [handleValidReport, h, List.map_append, List.map_cons, List.map_nil]
        exact List.mem_append_right _ (List.mem_singleton.mpr rfl)
      · by_cases hc : store.nextId = pid <;>
          simp [bumpPrimary, newDuplicateReport, hc]
    · intro p hp hpid
      simp only [handleValidReport, h, List.map_append]
      refine List.mem_append_left _ ?_
      have : bumpPrimary pid store.nextId p =
          { p with duplicateCount := p.duplicateCount + 1,
                   mergedReports := p.mergedReports ++ [store.nextId] } := by
        simp [bumpPrimary, hpid]
      exact this ▸ List.mem_map_of_mem _ hp
  · intro h
    refine ⟨handleValidReport_length store lat lon now photoOk oracle, ?_⟩
    refine ⟨newPrimaryReport store.nextId lat lon now, ?_, ?_⟩
    · simp only [handleValidReport, h]
      exact List.mem_append_right _ (List.mem_singleton.mpr rfl)
    · simp [newPrimaryReport]

/-- C7: updating a report's status to resolved — through the status-update
operation or through the resolution-photo operation, whether or not AI
verification was available — sets the status to resolved and clears both
`escalated` and `escalation_notified` in the same update. -/
theorem resolution_clears_escalation (store : Store) (id : ℤ) (v : Option ℚ)
    (r : Report) :
    (r ∈ (updateStatus store id Status.resolved).reports → r.id = id →
      r.status = Status.resolved ∧ r.escalated = false ∧ r.escalationNotified = false) ∧
    (r ∈ (resolveReport store id v).reports → r.id = id →
      r.status = Status.resolved ∧ r.escalated = false ∧ r.escalationNotified = false) := by
  constructor
  · intro hr hid
    simp only [updateStatus, List.mem_map] at hr
    obtain ⟨r₀, _, hmap⟩ := hr
    by_cases h0 : r₀.id = id
    · rw [if_pos h0, if_pos trivial] at hmap
      subst hmap
      exact ⟨rfl, rfl, rfl⟩
    · rw [if_neg h0] at hmap
      subst hmap
      exact absurd hid h0
  · intro hr hid
    simp only [resolveReport, List.mem_map] at hr
    obtain ⟨r₀, _, hmap⟩ := hr
    by_cases h0 : r₀.id = id
    · rw [if_pos h0] at hmap
      cases v with
      | some w => subst hmap; exact ⟨rfl, rfl, rfl⟩
      | none => subst hmap; exact ⟨rfl, rfl, rfl⟩
    · rw [if_neg h0] at hmap
      subst hmap
      exact absurd hid h0

/-- C8: a status update to pending or to verified leaves every report's
`escalated` and `escalation_notified` fields exactly as they were:
de-escalation never happens through a non-resolved status update. -/
theorem nonresolved_update_preserves_escalation (store : Store) (id : ℤ) :
    ((updateStatus store id Status.pending).reports.map
        fun r => (r.escalated, r.escalationNotified)) =
      (store.reports.map fun r => (r.escalated, r.escalationNotified)) ∧
    ((updateStatus store id Status.verified).reports.map
        fun r => (r.escalated, r.escalationNotified)) =
      (store.reports.map fun r => (r.escalated, r.escalationNotified)) := by
  constructor <;>
  · simp only [updateStatus, List.map_map]
    apply List.map_congr_left
    intro r _
    by_cases h0 : r.id = id <;> simp [h0]

/-- C3: in every store reachable from the empty database through the core
operations (submission — primary creation or duplicate merge — status
update, resolution), every primary report's `duplicate_count` equals 1 plus
the length of its `merged_reports`, which equals the number of reports
whose `duplicate_of` points at it. -/
theorem duplicate_count_invariant (store : Store) (h : Reachable store) :
    dupInvariant store :=
  (reachable_wf_inv store h).2

/-- C3 witness: the invariant holds concretely after a submission into the
empty store. -/
theorem duplicate_count_invariant_witness :
    dupInvariant ((processReport emptyStore demoRequest 0 allPhotosOk demoOracle).1) :=
  duplicate_count_invariant _
    (Reachable.step Reachable.init
      (Step.submit emptyStore demoRequest 0 allPhotosOk demoOracle))

/-- C5: the new row stored by a submission, when its `duplicate_of` is set,
always points at a stored primary report within 50 metres (haversine) of
the submission's coordinates. -/
theorem duplicate_within_radius (store : Store) (lat lon : ℝ) (now : ℤ)
    (photoOk : ℤ → Bool) (oracle : ℤ → OracleOutcome)
    (hwf : ∀ r ∈ store.reports, r.id < store.nextId)
    (r : Report)
    (hr : r ∈ ((handleValidReport store lat lon now photoOk oracle).1).reports)
    (hid : r.id = store.nextId) (pid : ℤ) (hdup : r.duplicateOf = some pid) :
    ∃ p ∈ store.reports, p.id = pid ∧ p.isPrimary = true ∧
      calculateDistance lat lon p.latitude p.longitude ≤ 50 := by
  cases hd : findDuplicate photoOk oracle (findNearbyReports store.reports lat lon 50 none) with
  | none =>
      simp only [handleValidReport, hd] at hr
      rcases List.mem_append.mp hr with h | h
      · exact absurd (hid ▸ hwf r h) (lt_irrefl _)
      · rcases List.mem_singleton.mp h with rfl
        simp [newPrimaryReport] at hdup
  | some pq =>
      obtain ⟨pid', q⟩ := pq
      simp only [handleValidReport, hd] at hr
      rcases List.mem_map.mp hr with ⟨x, hx, rfl⟩
      rcases List.mem_append.mp hx with h | h
      · rw [bumpPrimary_id] at hid
        exact absurd (hid ▸ hwf x h) (lt_irrefl _)
      · rcases List.mem_singleton.mp h with rfl
        rw [bumpPrimary_duplicateOf] at hdup
        have hpid : pid' = pid := by
          simpa [newDuplicateReport] using hdup
        subst hpid
        obtain ⟨c, hc_near, hc_id, _, _⟩ := findDuplicate_some photoOk oracle _ pid' q hd
        obtain ⟨hc_store, hc_prim, _, _, hc_dist⟩ :=
          (mem_findNearbyReports store.reports lat lon 50 none c).mp hc_near
        exact ⟨c, hc_store, hc_id, hc_prim, hc_dist⟩

/-- C5 witness: a concrete duplicate submission at the demo coordinates
points at a stored primary 0 metres away. -/
theorem duplicate_within_radius_witness :
    ∃ p ∈ demoStore.reports, p.id = 1 ∧ p.isPrimary = true ∧
      calculateDistance 12 77 p.latitude p.longitude ≤ 50 :=
  duplicate_within_radius demoStore 12 77 0 allPhotosOk demoOracle
    (by
      intro r hr
      have h : r = demoPrimary := List.mem_singleton.mp hr
      subst h
      decide)
    (newDuplicateReport 2 12 77 0 1 85) demo_dup_mem rfl 1 rfl

/-- C9 counterexample: a submission with latitude 999 — outside the valid
coordinate range — passes the handler's validation and a report row is
inserted, so out-of-range coordinates are not rejected. -/
theorem out_of_range_accepted_cex :
    ¬ coordinatesInRange 999 0 ∧
    ((processReport emptyStore outOfRangeRequest 0 allPhotosOk demoOracle).1).reports.length = 1 := by
  constructor
  · intro h
    have h2 := h.2.1
    norm_num at h2
  · have hd : findDuplicate allPhotosOk demoOracle
        (findNearbyReports emptyStore.reports 999 0 50 none) = none := by
      rw [show emptyStore.reports = [] from rfl, findNearbyReports_nil]
      rfl
    simp only [processReport, outOfRangeRequest, handleValidReport, hd]
    simp [emptyStore]

/-- C9 (amended): a submission missing a required field — the photo, the
latitude or the longitude — is rejected synchronously with HTTP 400 and the
store is left unchanged; the handler performs no coordinate range check, so
out-of-range coordinates are accepted. -/
theorem missing_fields_rejected (store : Store) (req : Request) (now : ℤ)
    (photoOk : ℤ → Bool) (oracle : ℤ → OracleOutcome)
    (h : req.photoProvided = false ∨ req.latitude = none ∨ req.longitude = none) :
    processReport store req now photoOk oracle = (store, SubmitResult.error 400) := by
  unfold processReport
  by_cases hp : req.photoProvided = false
  · simp [hp]
  · have hreq : req.latitude = none ∨ req.longitude = none := by
      rcases h with h | h | h
      · exact absurd h hp
      · exact Or.inl h
      · exact Or.inr h
    rw [if_neg hp]
    cases hlat : req.latitude with
    | none => simp
    | some lat =>
        cases hlon : req.longitude with
        | none => simp
        | some lon =>
            rcases hreq with h1 | h1
            · rw [hlat] at h1
              exact absurd h1 (by simp)
            · rw [hlon] at h1
              exact absurd h1 (by simp)

/-- C9 witness: a concrete photo-less submission is rejected with HTTP 400
and no store mutation. -/
theorem missing_fields_rejected_witness :
    processReport emptyStore noPhotoRequest 0 allPhotosOk demoOracle =
      (emptyStore, SubmitResult.error 400) :=
  missing_fields_rejected emptyStore noPhotoRequest 0 allPhotosOk demoOracle
    (Or.inl rfl)

/-- C10: the file-size fallback similarity is capped at 50; `compareImages`
returns exactly the fallback score when the API key is unconfigured or all
retried attempts threw; and a submission in which every candidate's
comparison degraded to the fallback is always classified as primary, never
as a duplicate. -/
theorem fallback_capped_primary (sizes : Option (ℚ × ℚ)) :
    fallbackImageSimilarity sizes ≤ 50 ∧
    (∀ (apiKey : Bool) (attempts : List (Option ℚ)),
      apiKey = false ∨ firstSuccess (attempts.take 3) = none →
      compareImages apiKey attempts sizes = fallbackImageSimilarity sizes) ∧
    (∀ (store : Store) (lat lon : ℝ) (now : ℤ) (photoOk : ℤ → Bool)
        (oracle : ℤ → OracleOutcome),
      (∀ i : ℤ, ∃ (apiKey : Bool) (attempts : List (Option ℚ)) (sz : Option (ℚ × ℚ)),
        (apiKey = false ∨ firstSuccess (attempts.take 3) = none) ∧
        oracle i = OracleOutcome.score (compareImages apiKey attempts sz)) →
      (handleValidReport store lat lon now photoOk oracle).2.isDuplicate = false ∧
      ∃ r ∈ ((handleValidReport store lat lon now photoOk oracle).1).reports,
        r.id = store.nextId ∧ r.isPrimary = true) := by
  have hcap : ∀ sz : Option (ℚ × ℚ), fallbackImageSimilarity sz ≤ 50 := by
    intro sz
    cases sz with
    | none => norm_num [fallbackImageSimilarity]
    | some p =>
        obtain ⟨s1, s2⟩ := p
        simp only [fallbackImageSimilarity]
        exact min_le_left _ _
  have hcomp : ∀ (apiKey : Bool) (attempts : List (Option ℚ)) (sz : Option (ℚ × ℚ)),
      apiKey = false ∨ firstSuccess (attempts.take 3) = none →
      compareImages apiKey attempts sz = fallbackImageSimilarity sz := by
    intro k a sz h
    rcases h with h | h
    · simp [compareImages, h]
    · by_cases hk : k = false
      · simp [compareImages, hk]
      · simp [compareImages, hk, h]
  refine ⟨hcap sizes, fun k a h => hcomp k a sizes h, ?_⟩
  intro store lat lon now photoOk oracle hor
  have hnone : findDuplicate photoOk oracle
      (findNearbyReports store.reports lat lon 50 none) = none := by
    rw [findDuplicate_eq_find?]
    have hfind : (findNearbyReports store.reports lat lon 50 none).find?
        (isMatch photoOk oracle) = none := by
      apply List.find?_eq_none.mpr
      intro x _ hmatch
      obtain ⟨_, q', hq', hge, _⟩ := isMatch_score photoOk oracle x hmatch
      obtain ⟨k, a, sz, hcond, hor_eq⟩ := hor x.id
      rw [hor_eq] at hq'
      have heq : compareImages k a sz = q' := by
        injection hq'
      have hle : q' ≤ 50 := by
        rw [← heq, hcomp k a sz hcond]
        exact hcap sz
      linarith
    rw [hfind]
    rfl
  constructor
  · simp only [handleValidReport, hnone]
  · simp only [handleValidReport, hnone]
    exact ⟨newPrimaryReport store.nextId lat lon now,
      List.mem_append_right _ (List.mem_singleton.mpr rfl), rfl, rfl⟩

end NeuroCity
